import Mathlib

/-!
# Tracearr core: session lifecycle tracker, rule engine, violation dedup

Shallow embedding of the Tracearr core (session pause tracking, rule
evaluation, violation deduplication, inactivity scanning, and the
violations-table uniqueness backstop), with theorems checking the
natural-language specification against it.

Timestamps and durations are modelled as `Int` milliseconds since epoch
(JavaScript `Date.getTime()` values).  Nullable fields are `Option`.
-/

namespace Tracearr

/-- Playback state of a session: `state ∈ {playing, paused, stopped}` (spec §3). -/
inductive PlayState where
  | playing
  | paused
  | stopped
deriving DecidableEq, Repr

/-- The six configured rule types (spec §3, `Rule.type`). -/
inductive RuleType where
  | impossible_travel
  | device_velocity
  | geo_restriction
  | inactive_user
  | concurrent_streams
  | simultaneous_locations
deriving DecidableEq, Repr

/-- A rule type is multi-session when its violation condition depends on
comparing several concurrently active sessions (spec glossary):
`concurrent_streams` and `simultaneous_locations`. -/
def RuleType.isMultiSession : RuleType → Bool
  | .concurrent_streams => true
  | .simultaneous_locations => true
  | _ => false

/-! ## SessionTracker (pause accumulation, stop duration, resume chaining) -/

/-- Pause-tracking fields of a session row: `lastPausedAt` (non-null iff
currently paused) and the accumulator `pausedDurationMs`. -/
structure PauseRecord where
  lastPausedAt : Option Int
  pausedDurationMs : Int
deriving DecidableEq, Repr

/-- Modelled from the spec: `calculatePauseAccumulation` from
`apps/server/src/jobs/poller.ts`, which is not under `src/` (only its tests
are).  Spec §4.1 `accumulatePause`: on `playing→paused`, set
`lastPausedAt = now` and leave the accumulator unchanged; on
`paused→playing`, add `now - lastPausedAt` to the accumulator and clear
`lastPausedAt`; any other transition pair is a pass-through. -/
def calculatePauseAccumulation (prevState newState : PlayState)
    (s : PauseRecord) (now : Int) : PauseRecord :=
  match prevState, newState with
  | .playing, .paused => { lastPausedAt := some now, pausedDurationMs := s.pausedDurationMs }
  | .paused, .playing =>
    match s.lastPausedAt with
    | some t => { lastPausedAt := none, pausedDurationMs := s.pausedDurationMs + (now - t) }
    | none => s
  | _, _ => s

/-- One complete pause/resume cycle applied to a pause record:
a `playing→paused` transition at `c.1` followed by a `paused→playing`
transition at `c.2`. -/
def applyPauseCycle (s : PauseRecord) (c : Int × Int) : PauseRecord :=
  calculatePauseAccumulation .paused .playing
    (calculatePauseAccumulation .playing .paused s c.1) c.2

/-- Run a list of complete pause/resume cycles from the initial pause record
of a freshly started session (`lastPausedAt = null`, accumulator `0`). -/
def runPauseCycles (cycles : List (Int × Int)) : PauseRecord :=
  cycles.foldl applyPauseCycle { lastPausedAt := none, pausedDurationMs := 0 }

/-- Inputs of the stop-finalization function. -/
structure StopInput where
  startedAt : Int
  lastPausedAt : Option Int
  pausedDurationMs : Int
deriving DecidableEq, Repr

/-- Outputs of the stop-finalization function. -/
structure StopResult where
  durationMs : Int
  finalPausedDurationMs : Int
deriving DecidableEq, Repr

/-- Modelled from the spec: `calculateStopDuration` from
`apps/server/src/jobs/poller.ts`, which is not under `src/` (only its tests
are).  Spec §4.1 `finalizeDuration`: if still paused at stop time, fold the
open interval into the accumulator first;
`durationMs = max(0, (stoppedAt - startedAt) - finalPausedDurationMs)`. -/
def calculateStopDuration (s : StopInput) (stoppedAt : Int) : StopResult :=
  let finalPaused :=
    match s.lastPausedAt with
    | some t => s.pausedDurationMs + (stoppedAt - t)
    | none => s.pausedDurationMs
  { durationMs := max 0 ((stoppedAt - s.startedAt) - finalPaused)
    finalPausedDurationMs := finalPaused }

/-- The previous-session record consulted by the resume-chain function. -/
structure PrevSession where
  id : String
  referenceId : Option String
  progressMs : Int
  watched : Bool
  stoppedAt : Int
deriving DecidableEq, Repr

/-- Modelled from the spec: `shouldGroupWithPreviousSession` from
`apps/server/src/jobs/poller.ts`, which is not under `src/` (only its tests
are).  Spec §4.1 `resumeChainTarget`: null if `previous.watched`, or
`previous.stoppedAt < cutoff`, or `newProgressMs < previous.progressMs`;
otherwise `previous.referenceId` when already set, else `previous.id`. -/
def shouldGroupWithPreviousSession (previous : PrevSession)
    (newProgressMs : Int) (cutoff : Int) : Option String :=
  if previous.watched then none
  else if previous.stoppedAt < cutoff then none
  else if newProgressMs < previous.progressMs then none
  else some (previous.referenceId.getD previous.id)

/-! ## Helper lemmas for pause-cycle accumulation -/

theorem applyPauseCycle_eq (s : PauseRecord) (c : Int × Int) :
    applyPauseCycle s c
      = { lastPausedAt := none, pausedDurationMs := s.pausedDurationMs + (c.2 - c.1) } := rfl

theorem foldl_applyPauseCycle_pausedDuration (cycles : List (Int × Int)) :
    ∀ s : PauseRecord,
      (cycles.foldl applyPauseCycle s).pausedDurationMs
        = s.pausedDurationMs + (cycles.map (fun c => c.2 - c.1)).sum := by
  induction cycles with
  | nil => intro s; simp
  | cons c cs ih =>
    intro s
    simp only [List.foldl_cons, List.map_cons, List.sum_cons, ih, applyPauseCycle_eq]
    ring

theorem foldl_applyPauseCycle_lastPaused (cycles : List (Int × Int)) :
    ∀ s : PauseRecord, s.lastPausedAt = none →
      (cycles.foldl applyPauseCycle s).lastPausedAt = none := by
  induction cycles with
  | nil => intro s hs; simpa using hs
  | cons c cs ih =>
    intro s _
    simp only [List.foldl_cons]
    exact ih _ rfl

/-- C4: `calculatePauseAccumulation` records `lastPausedAt = now` on
`playing→paused` (accumulator unchanged), adds `now − lastPausedAt` to the
accumulator and clears `lastPausedAt` on `paused→playing`, passes the input
record through on every other transition pair, and consequently after N
complete pause/resume cycles the accumulator equals the sum of each cycle's
`resume_time − pause_time`. -/
theorem C4_pause_accumulation (prev next : PlayState) (s : PauseRecord) (now : Int) :
    (calculatePauseAccumulation .playing .paused s now
        = { lastPausedAt := some now, pausedDurationMs := s.pausedDurationMs })
    ∧ (∀ t, s.lastPausedAt = some t →
        calculatePauseAccumulation .paused .playing s now
          = { lastPausedAt := none, pausedDurationMs := s.pausedDurationMs + (now - t) })
    ∧ (¬(prev = .playing ∧ next = .paused) → ¬(prev = .paused ∧ next = .playing) →
        calculatePauseAccumulation prev next s now = s)
    ∧ (∀ cycles : List (Int × Int),
        (runPauseCycles cycles).pausedDurationMs = (cycles.map (fun c => c.2 - c.1)).sum
        ∧ (runPauseCycles cycles).lastPausedAt = none) := by
  refine ⟨rfl, ?_, ?_, ?_⟩
  · intro t ht
    simp [calculatePauseAccumulation, ht]
  · intro h1 h2
    cases prev <;> cases next <;> simp_all [calculatePauseAccumulation]
  · intro cycles
    constructor
    · simpa using foldl_applyPauseCycle_pausedDuration cycles ⟨none, 0⟩
    · exact foldl_applyPauseCycle_lastPaused cycles ⟨none, 0⟩ rfl

/-- Witness for C4 at the concrete inputs of the repository's pause-tracking
tests: a resume 150 ms after the pause adds 150 ms to the accumulator, a
`playing→playing` no-op leaves the record unchanged, and two complete cycles
of 5 and 10 minutes accumulate 15 minutes. -/
theorem C4_pause_accumulation_witness :
    calculatePauseAccumulation .paused .playing ⟨some 100, 5⟩ 250 = ⟨none, 155⟩
    ∧ calculatePauseAccumulation .playing .playing ⟨none, 5000⟩ 99 = ⟨none, 5000⟩
    ∧ (runPauseCycles [(300000, 600000), (900000, 1500000)]).pausedDurationMs = 900000 := by
  refine ⟨?_, ?_, ?_⟩
  · have h := (C4_pause_accumulation .paused .playing ⟨some 100, 5⟩ 250).2.1 100 rfl
    simpa using h
  · exact (C4_pause_accumulation .playing .playing ⟨none, 5000⟩ 99).2.2.1
      (by decide) (by decide)
  · have h := ((C4_pause_accumulation .playing .playing ⟨none, 0⟩ 0).2.2.2
      [(300000, 600000), (900000, 1500000)]).1
    simpa using h

/-- C5: `calculateStopDuration` folds the open pause interval into the
accumulator when `lastPausedAt` is non-null, returns
`durationMs = max(0, (stoppedAt − startedAt) − finalPausedDurationMs)`, and
in particular never returns a negative duration. -/
theorem C5_stop_duration (s : StopInput) (stoppedAt : Int) :
    (s.lastPausedAt = none →
      (calculateStopDuration s stoppedAt).finalPausedDurationMs = s.pausedDurationMs)
    ∧ (∀ t, s.lastPausedAt = some t →
      (calculateStopDuration s stoppedAt).finalPausedDurationMs
        = s.pausedDurationMs + (stoppedAt - t))
    ∧ (calculateStopDuration s stoppedAt).durationMs
        = max 0 ((stoppedAt - s.startedAt)
            - (calculateStopDuration s stoppedAt).finalPausedDurationMs)
    ∧ 0 ≤ (calculateStopDuration s stoppedAt).durationMs := by
  refine ⟨?_, ?_, ?_, ?_⟩
  · intro h; simp [calculateStopDuration, h]
  · intro t h; simp [calculateStopDuration, h]
  · cases h : s.lastPausedAt <;> simp [calculateStopDuration, h]
  · cases h : s.lastPausedAt <;> simp [calculateStopDuration, h]

/-- Witness for C5 at the repository test's "paused total exceeds wall-clock
elapsed time" input: a 30-minute session with a one-hour accumulated pause
yields `durationMs = 0`, not a negative value. -/
theorem C5_stop_duration_witness :
    (calculateStopDuration ⟨0, none, 3600000⟩ 1800000).finalPausedDurationMs = 3600000
    ∧ (calculateStopDuration ⟨0, none, 3600000⟩ 1800000).durationMs = 0
    ∧ (calculateStopDuration ⟨0, some 1800000, 900000⟩ 3600000).finalPausedDurationMs
        = 2700000 := by
  refine ⟨?_, ?_, ?_⟩
  · exact (C5_stop_duration ⟨0, none, 3600000⟩ 1800000).1 rfl
  · have h := (C5_stop_duration ⟨0, none, 3600000⟩ 1800000).2.2.1
    have h0 := (C5_stop_duration ⟨0, none, 3600000⟩ 1800000).1 rfl
    rw [h, h0]
    decide
  · have h := (C5_stop_duration ⟨0, some 1800000, 900000⟩ 3600000).2.1 1800000 rfl
    simpa using h

/-- C6: `shouldGroupWithPreviousSession` returns null when the previous
session is watched, stopped before the cutoff, or further along than the new
progress; otherwise it returns the previous session's `referenceId` when set,
else its `id` — so a previous session that already carries a root reference
yields that root, collapsing resume chains of any length to the root id. -/
theorem C6_resume_chain (p : PrevSession) (newProgressMs cutoff : Int) :
    (p.watched = true → shouldGroupWithPreviousSession p newProgressMs cutoff = none)
    ∧ (p.stoppedAt < cutoff → shouldGroupWithPreviousSession p newProgressMs cutoff = none)
    ∧ (newProgressMs < p.progressMs →
        shouldGroupWithPreviousSession p newProgressMs cutoff = none)
    ∧ (p.watched = false → cutoff ≤ p.stoppedAt → p.progressMs ≤ newProgressMs →
        shouldGroupWithPreviousSession p newProgressMs cutoff
          = some (p.referenceId.getD p.id))
    ∧ (∀ root, p.referenceId = some root →
        p.watched = false → cutoff ≤ p.stoppedAt → p.progressMs ≤ newProgressMs →
        shouldGroupWithPreviousSession p newProgressMs cutoff = some root) := by
  refine ⟨?_, ?_, ?_, ?_, ?_⟩
  · intro h; simp [shouldGroupWithPreviousSession, h]
  · intro h
    simp only [shouldGroupWithPreviousSession, h, if_true]
    split <;> rfl
  · intro h
    simp only [shouldGroupWithPreviousSession, h]
    split <;> [rfl; skip]
    split <;> [rfl; skip]
    simp
  · intro h1 h2 h3
    simp [shouldGroupWithPreviousSession, h1, not_lt.mpr h2, not_lt.mpr h3]
  · intro root hr h1 h2 h3
    simp [shouldGroupWithPreviousSession, h1, not_lt.mpr h2, not_lt.mpr h3, hr]

/-- Witness for C6 on a concrete three-session resume chain: S2 resuming
root S1 yields S1's id, and S3 resuming S2 (which carries `referenceId = S1`)
also yields S1's id, not S2's; a watched previous session yields null. -/
theorem C6_resume_chain_witness :
    shouldGroupWithPreviousSession ⟨"S1", none, 1800000, false, 1000⟩ 1800000 500
      = some "S1"
    ∧ shouldGroupWithPreviousSession ⟨"S2", some "S1", 3600000, false, 2000⟩ 3600000 1500
      = some "S1"
    ∧ shouldGroupWithPreviousSession ⟨"S1", none, 1800000, true, 1000⟩ 1800000 500
      = none := by
  refine ⟨?_, ?_, ?_⟩
  · have h := (C6_resume_chain ⟨"S1", none, 1800000, false, 1000⟩ 1800000 500).2.2.2.1
      rfl (by decide) (by decide)
    simpa using h
  · exact (C6_resume_chain ⟨"S2", some "S1", 3600000, false, 2000⟩ 3600000 1500).2.2.2.2
      "S1" rfl rfl (by decide) (by decide)
  · exact (C6_resume_chain ⟨"S1", none, 1800000, true, 1000⟩ 1800000 500).1 rfl

/-! ## ViolationDeduplicator -/

/-- The rule-specific `data` payload of an existing violation as seen by the
deduplicator: possibly-missing `relatedSessionIds`. -/
structure ViolationData where
  relatedSessionIds : Option (List String)
deriving DecidableEq, Repr

/-- An existing unacknowledged violation row consulted by the deduplicator:
its triggering `sessionId` and possibly-null `data`. -/
structure ExistingViolation where
  sessionId : String
  data : Option ViolationData
deriving DecidableEq, Repr

/-- The session-id set contributed by an existing violation:
its own `sessionId` together with `data.relatedSessionIds`; a violation with
null `data` or missing `relatedSessionIds` contributes only `sessionId`. -/
def ExistingViolation.sessionIds (v : ExistingViolation) : List String :=
  v.sessionId :: ((v.data.bind (fun d => d.relatedSessionIds)).getD [])

/-- Modelled from the spec: `isDuplicateViolation` from
`apps/server/src/jobs/poller/violations.ts`, which is not under `src/` (only
its tests are).  Spec §4.3: for single-session rule types a candidate is a
duplicate iff an existing violation's `sessionId` equals
`triggeringSessionId`; for multi-session rule types it is a duplicate iff
`{triggeringSessionId} ∪ relatedSessionIds` intersects
`{existing.sessionId} ∪ existing.data.relatedSessionIds` for some existing
violation.  The `existing` argument stands for the fetched unacknowledged
violations for `(serverUserId, ruleType)`. -/
def isDuplicateViolation (ruleType : RuleType) (triggeringSessionId : String)
    (relatedSessionIds : List String) (existing : List ExistingViolation) : Bool :=
  if ruleType.isMultiSession then
    existing.any (fun v =>
      (triggeringSessionId :: relatedSessionIds).any (fun x => v.sessionIds.contains x))
  else
    existing.any (fun v => v.sessionId == triggeringSessionId)

/-- A candidate violation produced by evaluating one session:
its triggering session id and the related session ids it enumerates. -/
structure Candidate where
  trigger : String
  related : List String
deriving DecidableEq, Repr

/-- Sequential evaluation of candidate violations through the dedup gate:
each candidate is recorded as a new violation only when `isDuplicateViolation`
rejects it against the violations recorded so far. -/
def processCandidates (ruleType : RuleType) (cands : List Candidate) :
    List ExistingViolation :=
  cands.foldl
    (fun acc c =>
      if isDuplicateViolation ruleType c.trigger c.related acc then acc
      else acc ++ [⟨c.trigger, some ⟨some c.related⟩⟩])
    []

/-- C1: for single-session rule types the deduplicator reports a duplicate
iff some existing violation's `sessionId` equals the triggering session id;
for multi-session rule types it reports a duplicate iff
`{trigger} ∪ related` intersects `{existing.sessionId} ∪ existing.related`
for some existing violation; and three sessions that start together, each
listing the other two as related, converge on exactly one recorded violation
in every evaluation order. -/
theorem C1_dedup (ruleType : RuleType) (trigger : String)
    (related : List String) (existing : List ExistingViolation) :
    (ruleType.isMultiSession = false →
      (isDuplicateViolation ruleType trigger related existing = true
        ↔ ∃ v ∈ existing, v.sessionId = trigger))
    ∧ (ruleType.isMultiSession = true →
      (isDuplicateViolation ruleType trigger related existing = true
        ↔ ∃ v ∈ existing, ∃ x ∈ trigger :: related, x ∈ v.sessionIds))
    ∧ (∀ l : List Candidate,
        l ∈ ([[Candidate.mk "A" ["B", "C"], Candidate.mk "B" ["A", "C"],
                Candidate.mk "C" ["A", "B"]],
              [Candidate.mk "A" ["B", "C"], Candidate.mk "C" ["A", "B"],
                Candidate.mk "B" ["A", "C"]],
              [Candidate.mk "B" ["A", "C"], Candidate.mk "A" ["B", "C"],
                Candidate.mk "C" ["A", "B"]],
              [Candidate.mk "B" ["A", "C"], Candidate.mk "C" ["A", "B"],
                Candidate.mk "A" ["B", "C"]],
              [Candidate.mk "C" ["A", "B"], Candidate.mk "A" ["B", "C"],
                Candidate.mk "B" ["A", "C"]],
              [Candidate.mk "C" ["A", "B"], Candidate.mk "B" ["A", "C"],
                Candidate.mk "A" ["B", "C"]]] : List (List Candidate)) →
        (processCandidates .concurrent_streams l).length = 1) := by
  refine ⟨?_, ?_, ?_⟩
  · intro h
    simp [isDuplicateViolation, h, List.any_eq_true]
  · intro h
    simp [isDuplicateViolation, h, List.any_eq_true, List.elem_iff, and_comm]
  · decide

/-- Witness for C1 at the repository test's inputs: a single-session rule
matches only on an equal triggering session id; a multi-session candidate
whose trigger appears in an existing violation's related list is a duplicate;
an existing violation with null data and no overlap is not; and the
three-simultaneous-sessions scenario converges to one violation. -/
theorem C1_dedup_witness :
    isDuplicateViolation .impossible_travel "session-new" []
      [⟨"session-new", some ⟨some []⟩⟩] = true
    ∧ isDuplicateViolation .concurrent_streams "session-new" []
      [⟨"session-other", some ⟨some ["session-new", "session-x"]⟩⟩] = true
    ∧ isDuplicateViolation .concurrent_streams "session-new" ["related-1"]
      [⟨"session-other", none⟩] = false
    ∧ (processCandidates .concurrent_streams
        [⟨"B", ["A", "C"]⟩, ⟨"A", ["B", "C"]⟩, ⟨"C", ["A", "B"]⟩]).length = 1 := by
  refine ⟨?_, ?_, ?_, ?_⟩
  · exact ((C1_dedup .impossible_travel "session-new" []
      [⟨"session-new", some ⟨some []⟩⟩]).1 rfl).mpr
      ⟨⟨"session-new", some ⟨some []⟩⟩, by simp, rfl⟩
  · exact ((C1_dedup .concurrent_streams "session-new" []
      [⟨"session-other", some ⟨some ["session-new", "session-x"]⟩⟩]).2.1 rfl).mpr
      ⟨⟨"session-other", some ⟨some ["session-new", "session-x"]⟩⟩, by simp, "session-new",
        by simp, by simp [ExistingViolation.sessionIds]⟩
  · by_contra hcon
    have h := ((C1_dedup .concurrent_streams "session-new" ["related-1"]
      [⟨"session-other", none⟩]).2.1 rfl).mp (by simpa using hcon)
    revert h
    decide
  · exact (C1_dedup .concurrent_streams "x" [] []).2.2
      [⟨"B", ["A", "C"]⟩, ⟨"A", ["B", "C"]⟩, ⟨"C", ["A", "B"]⟩] (by decide)

/-! ## Transactional dedup path (advisory lock) -/

/-- A database action performed inside the violation-creation transaction,
in order: acquiring the transaction-scoped advisory lock
(`pg_advisory_xact_lock`) with its key, or running the dedup select. -/
inductive TxAction where
  | advisoryLock (key : Int)
  | dedupQuery
deriving DecidableEq, Repr

/-- Canonical name of a rule type, as stored in the `rule_type` column. -/
def RuleType.name : RuleType → String
  | .impossible_travel => "impossible_travel"
  | .device_velocity => "device_velocity"
  | .geo_restriction => "geo_restriction"
  | .inactive_user => "inactive_user"
  | .concurrent_streams => "concurrent_streams"
  | .simultaneous_locations => "simultaneous_locations"

/-- Modelled from the spec: the advisory-lock key, "a hash of
`(serverUserId, ruleType)`" (spec §4.3); the concrete hash function is in
`apps/server/src/jobs/poller/violations.ts`, which is not under `src/`.
Modelled as a string fold hash of the pair. -/
def advisoryLockKey (serverUserId : String) (ruleType : RuleType) : Int :=
  ((serverUserId ++ ":" ++ ruleType.name).toList.foldl
    (fun h c => h * 31 + c.toNat) 7 : Nat)

/-- Modelled from the spec: `isDuplicateViolationInTransaction` from
`apps/server/src/jobs/poller/violations.ts`, which is not under `src/` (only
its tests are).  Spec §4.3: on the write path, for multi-session rule types
only, acquire a transaction-scoped mutual-exclusion lock keyed by a hash of
`(serverUserId, ruleType)` before running the dedup query; single-session
rule types skip the lock.  The dedup logic is shared with
`isDuplicateViolation`.  Returns the ordered trace of database actions
together with the dedup verdict. -/
def isDuplicateViolationInTransaction (serverUserId : String) (ruleType : RuleType)
    (triggeringSessionId : String) (relatedSessionIds : List String)
    (existing : List ExistingViolation) : List TxAction × Bool :=
  let lockActions :=
    if ruleType.isMultiSession then
      [TxAction.advisoryLock (advisoryLockKey serverUserId ruleType)]
    else []
  (lockActions ++ [TxAction.dedupQuery],
    isDuplicateViolation ruleType triggeringSessionId relatedSessionIds existing)

/-- C2: on the transactional write path, for every multi-session rule type
the advisory lock keyed by the hash of `(serverUserId, ruleType)` is acquired
and precedes the dedup query in the transaction's action trace; for every
single-session rule type no advisory lock is ever acquired; the dedup verdict
is the shared `isDuplicateViolation` logic; and the multi-session rule types
are exactly `concurrent_streams` and `simultaneous_locations`. -/
theorem C2_advisory_lock (serverUserId : String) (ruleType : RuleType)
    (trigger : String) (related : List String) (existing : List ExistingViolation) :
    (ruleType.isMultiSession = true →
      (isDuplicateViolationInTransaction serverUserId ruleType trigger related existing).1
        = [TxAction.advisoryLock (advisoryLockKey serverUserId ruleType),
            TxAction.dedupQuery])
    ∧ (ruleType.isMultiSession = false →
      (isDuplicateViolationInTransaction serverUserId ruleType trigger related existing).1
        = [TxAction.dedupQuery])
    ∧ (isDuplicateViolationInTransaction serverUserId ruleType trigger related existing).2
        = isDuplicateViolation ruleType trigger related existing
    ∧ (ruleType.isMultiSession = true
        ↔ ruleType = .concurrent_streams ∨ ruleType = .simultaneous_locations) := by
  refine ⟨?_, ?_, rfl, ?_⟩
  · intro h; simp [isDuplicateViolationInTransaction, h]
  · intro h; simp [isDuplicateViolationInTransaction, h]
  · cases ruleType <;> simp [RuleType.isMultiSession]

/-- Witness for C2: a `concurrent_streams` transaction's trace is the
advisory lock followed by the dedup query, while an `impossible_travel`
transaction's trace holds no lock at all. -/
theorem C2_advisory_lock_witness :
    (isDuplicateViolationInTransaction "user-123" .concurrent_streams "session-new"
        ["related-1"] []).1
      = [TxAction.advisoryLock (advisoryLockKey "user-123" .concurrent_streams),
          TxAction.dedupQuery]
    ∧ (isDuplicateViolationInTransaction "user-123" .impossible_travel "session-new"
        [] []).1
      = [TxAction.dedupQuery] := by
  refine ⟨?_, ?_⟩
  · exact (C2_advisory_lock "user-123" .concurrent_streams "session-new"
      ["related-1"] []).1 rfl
  · exact (C2_advisory_lock "user-123" .impossible_travel "session-new" [] []).2.1 rfl

/-! ## RuleEngine -/

/-- The session fields consumed by the rule engine (spec §3: identity,
lifecycle, and the device/IP/geo context used as rule inputs). -/
structure EngSession where
  id : String
  serverUserId : String
  state : PlayState
  stoppedAt : Option Int
  startedAt : Int
  deviceId : Option String
  ipAddress : Option String
  geoCountry : Option String
  geoLat : Option ℚ
  geoLon : Option ℚ
deriving DecidableEq, Repr

/-- Mode of a geo-restriction rule: block the listed countries, or allow
only the listed countries. -/
inductive GeoMode where
  | blocklist
  | allowlist
deriving DecidableEq, Repr

/-- Modelled from the spec: the type-specific `params` of a rule (spec §3,
§4.2) as a tagged union per rule type. -/
inductive RuleParams where
  | concurrentStreams (maxStreams : Nat)
  | simultaneousLocations (minDistanceKm : ℚ)
  | deviceVelocity (maxIps : Nat)
  | impossibleTravel (maxSpeedKmh : ℚ)
  | geoRestriction (mode : GeoMode) (countries : List String)
deriving DecidableEq, Repr

/-- A configured rule as consumed by the engine: its id and its
type-specific parameters. -/
structure EngRule where
  id : String
  params : RuleParams
deriving DecidableEq, Repr

/-- One engine result for a violated rule: the source rule is attached for
attribution, with the rule-specific data payload (`activeStreamCount` for
concurrent streams, `relatedSessionIds` for multi-session types). -/
structure EvalResult where
  rule : EngRule
  activeStreamCount : Option Nat
  relatedSessionIds : List String
deriving DecidableEq, Repr

/-- Modelled from the spec: the cross-cutting hardening filter of
`RuleEngine.evaluateSession` in `apps/server/src/services/rules.ts`, which is
not under `src/` (only its tests are).  Spec §4.2: `recent` is first filtered
to drop the triggering session itself (by id) and any session whose
`stoppedAt` is non-null, regardless of its `state` field. -/
def activeRecent (current : EngSession) (recent : List EngSession) : List EngSession :=
  recent.filter (fun s => s.id != current.id && s.stoppedAt.isNone)

/-- Concurrent-streams evaluation over the post-filter active sessions
(spec §4.2): count `= 1 (current) + |active|`; violate iff
`count > maxStreams`, carrying the count and the other active session ids. -/
def evalConcurrentStreams (maxStreams : Nat) (active : List EngSession) :
    Option (Nat × List String) :=
  let count := 1 + active.length
  if maxStreams < count then some (count, active.map (fun s => s.id)) else none

/-- A session's IP address for velocity counting; an empty string is a
distinct, unmatched value and contributes nothing (spec §4.2). -/
def sessionIp (s : EngSession) : Option String :=
  match s.ipAddress with
  | some ip => if ip = "" then none else some ip
  | none => none

/-- Distinct non-empty IP addresses across a set of sessions. -/
def distinctIps (ss : List EngSession) : List String :=
  (ss.filterMap sessionIp).dedup

/-- Device equality for impossible-travel exclusion; an empty or missing
device id never matches anything (spec §4.2). -/
def sameDevice (a b : EngSession) : Bool :=
  match a.deviceId, b.deviceId with
  | some x, some y => x != "" && y != "" && x == y
  | _, _ => false

/-- Impossible-travel evaluation (spec §4.2): for each recent active session
on a different device, violate if the implied speed from that session's
start to the current session's start exceeds `maxSpeedKmh`; stated as
`dist · 3600000 > maxSpeed · Δt(ms)` over positive elapsed time.  The
great-circle distance is abstracted as the `dist` argument. -/
def evalImpossibleTravel (dist : EngSession → EngSession → ℚ) (maxSpeedKmh : ℚ)
    (current : EngSession) (active : List EngSession) : Bool :=
  active.any (fun s =>
    !sameDevice current s &&
      (decide (0 < current.startedAt - s.startedAt) &&
        decide (maxSpeedKmh * ((current.startedAt - s.startedAt : Int) : ℚ)
          < dist current s * 3600000)))

/-- Simultaneous-locations evaluation (spec §4.2): violate if some pair of
distinct active sessions (current + recent) sits at least `minDistanceKm`
apart, carrying the other active session ids as related. -/
def evalSimultaneousLocations (dist : EngSession → EngSession → ℚ)
    (minDistanceKm : ℚ) (current : EngSession) (active : List EngSession) :
    Option (List String) :=
  let all := current :: active
  if all.any (fun a => all.any (fun b => a.id != b.id && decide (minDistanceKm ≤ dist a b)))
  then some (active.map (fun s => s.id))
  else none

/-- Geo-restriction evaluation (spec §4.2): check the current session's
country against the allow/block list per the rule's mode; a session with no
resolved country degrades to no violation. -/
def evalGeoRestriction (mode : GeoMode) (countries : List String)
    (current : EngSession) : Bool :=
  match current.geoCountry with
  | none => false
  | some c =>
    match mode with
    | .blocklist => countries.contains c
    | .allowlist => !countries.contains c

/-- Per-rule dispatch of the engine over the already-filtered active recent
sessions, attaching the source rule to each violated result. -/
def evalRulesOnActive (dist : EngSession → EngSession → ℚ) (current : EngSession)
    (rules : List EngRule) (active : List EngSession) : List EvalResult :=
  rules.filterMap (fun r =>
    match r.params with
    | .concurrentStreams m =>
      (evalConcurrentStreams m active).map (fun p => ⟨r, some p.1, p.2⟩)
    | .simultaneousLocations d =>
      (evalSimultaneousLocations dist d current active).map (fun rel => ⟨r, none, rel⟩)
    | .deviceVelocity m =>
      if m < (distinctIps (current :: active)).length then some ⟨r, none, []⟩ else none
    | .impossibleTravel v =>
      if evalImpossibleTravel dist v current active then some ⟨r, none, []⟩ else none
    | .geoRestriction mode cs =>
      if evalGeoRestriction mode cs current then some ⟨r, none, []⟩ else none)

/-- Modelled from the spec: `RuleEngine.evaluateSession` from
`apps/server/src/services/rules.ts`, which is not under `src/` (only its
tests are).  Spec §4.2: first apply the cross-cutting hardening filter to
`recent`, then evaluate every rule against the current session and the
filtered active window, returning one attributable result per violated
rule. -/
def evaluateSession (dist : EngSession → EngSession → ℚ) (current : EngSession)
    (rules : List EngRule) (recent : List EngSession) : List EvalResult :=
  evalRulesOnActive dist current rules (activeRecent current recent)

theorem activeRecent_drop (current : EngSession) (pre post : List EngSession)
    (s : EngSession) (h : s.stoppedAt ≠ none ∨ s.id = current.id) :
    activeRecent current (pre ++ s :: post) = activeRecent current (pre ++ post) := by
  have hs : (s.id != current.id && s.stoppedAt.isNone) = false := by
    rcases h with h | h
    · cases hst : s.stoppedAt with
      | none => exact absurd hst h
      | some t => simp [hst]
    · simp [h]
  simp [activeRecent, List.filter_append, List.filter_cons, hs]

theorem activeRecent_idem (current : EngSession) (recent : List EngSession) :
    activeRecent current (activeRecent current recent) = activeRecent current recent := by
  apply List.filter_eq_self.2
  intro a ha
  exact (List.mem_filter.1 ha).2

/-- C3: the rule engine first drops from the recent window every session
whose id equals the current session's id and every session whose `stoppedAt`
is non-null (even if its `state` still reads playing); such a session
contributes to no rule's result — inserting it anywhere in the recent window
changes no output — and the evaluation of every rule is fully determined by
the post-filter window. -/
theorem C3_recent_filtering (dist : EngSession → EngSession → ℚ)
    (current : EngSession) (rules : List EngRule) (pre post : List EngSession)
    (s : EngSession) :
    (s.stoppedAt ≠ none ∨ s.id = current.id →
      evaluateSession dist current rules (pre ++ s :: post)
        = evaluateSession dist current rules (pre ++ post))
    ∧ evaluateSession dist current rules (pre ++ s :: post)
        = evaluateSession dist current rules
            (activeRecent current (pre ++ s :: post)) := by
  constructor
  · intro h
    unfold evaluateSession
    rw [activeRecent_drop current pre post s h]
  · unfold evaluateSession
    rw [activeRecent_idem]

/-- Witness for C3 at the repository test's stale-snapshot scenario: a
stopped session whose `state` still reads playing, inserted into the recent
window, does not change the outcome of a `maxStreams = 1` concurrent-streams
rule, and the evaluation equals the one over the post-filter window. -/
theorem C3_recent_filtering_witness :
    evaluateSession (fun _ _ => 0)
        ⟨"current-session", "user-123", .playing, none, 0, some "device-2",
          none, none, none, none⟩
        [⟨"rule-1", .concurrentStreams 1⟩]
        ([] ++ ⟨"stale-session-1", "user-123", .playing, some 100, 0,
            some "device-1", none, none, none, none⟩ :: [])
      = evaluateSession (fun _ _ => 0)
          ⟨"current-session", "user-123", .playing, none, 0, some "device-2",
            none, none, none, none⟩
          [⟨"rule-1", .concurrentStreams 1⟩] ([] ++ []) := by
  exact (C3_recent_filtering (fun _ _ => 0)
    ⟨"current-session", "user-123", .playing, none, 0, some "device-2",
      none, none, none, none⟩
    [⟨"rule-1", .concurrentStreams 1⟩] [] []
    ⟨"stale-session-1", "user-123", .playing, some 100, 0, some "device-1",
      none, none, none, none⟩).1 (Or.inl (by simp))

/-- C7: for a `concurrent_streams` rule, the stream count is one (the
current session) plus the number of post-filter active recent sessions; a
result is produced iff that count strictly exceeds `maxStreams` (a count
exactly equal to `maxStreams` does not violate), and the result's data
carries `activeStreamCount = count` and `relatedSessionIds =` the ids of the
other active sessions. -/
theorem C7_concurrent_streams (dist : EngSession → EngSession → ℚ)
    (current : EngSession) (rid : String) (maxStreams : Nat)
    (recent : List EngSession) :
    evaluateSession dist current [⟨rid, .concurrentStreams maxStreams⟩] recent
      = (if maxStreams < 1 + (activeRecent current recent).length then
          [⟨⟨rid, .concurrentStreams maxStreams⟩,
            some (1 + (activeRecent current recent).length),
            (activeRecent current recent).map (fun s => s.id)⟩]
        else []) := by
  unfold evaluateSession evalRulesOnActive evalConcurrentStreams
  split <;> simp_all

/-! ## InactivityScanner (`evaluateInactiveRules`) -/

/-- `TIME_MS.DAY`: one day in milliseconds. -/
def dayMs : Int := 86400000

/-- A session row as consulted by the inactivity scanner when resolving each
user's most recent session (`ORDER BY started_at DESC`). -/
structure ScanSession where
  id : String
  startedAt : Int
deriving DecidableEq, Repr

/-- A server-user row as consulted by the inactivity scanner. -/
structure ScanUser where
  id : String
  lastActivityAt : Option Int
deriving DecidableEq, Repr

/-- The later-started of two sessions (keeping the earlier-listed one on
ties, as `DISTINCT ON ... ORDER BY started_at DESC` keeps one row). -/
def pickLater (a b : ScanSession) : ScanSession :=
  if a.startedAt < b.startedAt then b else a

/-- The user's most recent session: maximum `startedAt`
(`SELECT DISTINCT ON (server_user_id) ... ORDER BY started_at DESC`). -/
def latestSession : List ScanSession → Option ScanSession
  | [] => none
  | s :: rest => some (rest.foldl pickLater s)

/-- Per-user flagging decision of `evaluateInactiveRules`
(`apps/server/src/jobs/inactiveUserRule.ts`): with
`inactiveDays = Math.floor(params.inactiveDays ?? 0)`, the rule is skipped
unless `inactiveDays > 0`; a user is selected when `lastActivityAt` is
non-null and strictly precedes `now − inactiveDays` days
(`lt(serverUsers.lastActivityAt, thresholdDate)`); with sticky
acknowledgement, a user whose most recent acknowledged `inactive_user`
violation records the current `lastActivityAt` is skipped; the user's most
recent session becomes the triggering session, and a user with no session is
skipped.  Returns the triggering session id when the user is flagged. -/
def inactiveUserFlag (now inactiveDays : Int) (sticky : Bool)
    (ackLastActivity : Option Int) (userSessions : List ScanSession)
    (u : ScanUser) : Option String :=
  if inactiveDays ≤ 0 then none
  else
    match u.lastActivityAt with
    | none => none
    | some t =>
      if t < now - inactiveDays * dayMs then
        if sticky && ackLastActivity == some t then none
        else (latestSession userSessions).map (fun s => s.id)
      else none

theorem foldl_pickLater_mem (rest : List ScanSession) :
    ∀ s : ScanSession, rest.foldl pickLater s ∈ s :: rest := by
  induction rest with
  | nil => intro s; simp
  | cons r rest ih =>
    intro s
    have h := ih (pickLater s r)
    have hpick : pickLater s r = s ∨ pickLater s r = r := by
      unfold pickLater; split <;> simp
    simp only [List.foldl_cons]
    rcases List.mem_cons.1 h with h1 | h1
    · rw [h1]
      rcases hpick with h2 | h2 <;> rw [h2] <;> simp
    · exact List.mem_cons_of_mem _ (List.mem_cons_of_mem _ h1)

theorem foldl_pickLater_ge (rest : List ScanSession) :
    ∀ s : ScanSession, ∀ x ∈ s :: rest,
      x.startedAt ≤ (rest.foldl pickLater s).startedAt := by
  induction rest with
  | nil => intro s x hx; simp at hx; simp [hx]
  | cons r rest ih =>
    intro s x hx
    have hs : s.startedAt ≤ (pickLater s r).startedAt := by
      unfold pickLater; split <;> omega
    have hr : r.startedAt ≤ (pickLater s r).startedAt := by
      unfold pickLater; split <;> omega
    have htop : (pickLater s r).startedAt
        ≤ (rest.foldl pickLater (pickLater s r)).startedAt :=
      ih (pickLater s r) (pickLater s r) (List.mem_cons_self _ _)
    simp only [List.foldl_cons]
    rcases List.mem_cons.1 hx with h1 | h1
    · rw [h1]
      exact le_trans hs htop
    · rcases List.mem_cons.1 h1 with h2 | h2
      · rw [h2]
        exact le_trans hr htop
      · exact ih (pickLater s r) x (List.mem_cons_of_mem _ h2)

/-- C8 counterexample: a user whose inactivity equals the threshold exactly
(`now − lastActivityAt = inactiveDays` days, so `now − lastActivityAt ≥
inactiveDays` holds), with a most recent session available and no sticky
acknowledgement, is NOT flagged by the scanner — the selection is strict
(`lastActivityAt < now − inactiveDays` days), refuting the claimed `≥`. -/
theorem C8_inactivity_boundary :
    inactiveUserFlag 86400000 1 false none [⟨"s1", 0⟩] ⟨"u1", some 0⟩ = none
    ∧ 1 * dayMs ≤ 86400000 - 0 := by
  constructor
  · rfl
  · decide

/-- C8 (amended): the scanner flags a user for an active `inactive_user`
rule (with `inactiveDays > 0`) iff `lastActivityAt` strictly precedes the
threshold date `now − inactiveDays` days (`now − lastActivityAt >
inactiveDays` days), the sticky-acknowledgement guard does not match the
current `lastActivityAt`, and the user has at least one session; the
triggering session is the user's most recent session; a user with null
`lastActivityAt` or no session is never flagged. -/
theorem C8_inactivity_scanner (now d : Int) (sticky : Bool) (ack : Option Int)
    (ss : List ScanSession) (u : ScanUser) :
    (u.lastActivityAt = none → inactiveUserFlag now d sticky ack ss u = none)
    ∧ (ss = [] → inactiveUserFlag now d sticky ack ss u = none)
    ∧ (∀ t, u.lastActivityAt = some t →
        ((inactiveUserFlag now d sticky ack ss u).isSome = true
          ↔ 0 < d ∧ d * dayMs < now - t ∧ ¬(sticky = true ∧ ack = some t) ∧ ss ≠ []))
    ∧ (∀ sid, inactiveUserFlag now d sticky ack ss u = some sid →
        ∃ s ∈ ss, s.id = sid ∧ ∀ s2 ∈ ss, s2.startedAt ≤ s.startedAt) := by
  refine ⟨?_, ?_, ?_, ?_⟩
  · intro h
    unfold inactiveUserFlag
    split
    · rfl
    · rw [h]
  · intro h
    subst h
    unfold inactiveUserFlag
    split
    · rfl
    · cases hu : u.lastActivityAt with
      | none => rfl
      | some t => simp [latestSession]
  · intro t ht
    unfold inactiveUserFlag
    rw [ht]
    by_cases hd : d ≤ 0
    · simp only [hd, if_true]
      simp
      omega
    · simp only [hd, if_false]
      by_cases hlt : t < now - d * dayMs
      · simp only [hlt, if_true]
        by_cases hstick : sticky = true ∧ ack = some t
        · have : (sticky && ack == some t) = true := by
            simp [hstick.1, hstick.2]
          simp [this, hstick]
        · have hguard : (sticky && ack == some t) = false := by
            cases hsb : sticky
            · simp
            · simp only [Bool.true_and, beq_eq_false_iff_ne, ne_eq]
              intro hc
              exact hstick ⟨hsb, hc⟩
          simp only [hguard, Bool.false_eq_true, if_false]
          cases ss with
          | nil =>
            refine ⟨fun hc => absurd hc (by simp [latestSession]),
              fun hc => absurd rfl hc.2.2.2⟩
          | cons a rest =>
            constructor
            · intro _
              exact ⟨by omega, by omega, hstick, by simp⟩
            · intro _
              simp [latestSession]
      · simp only [hlt, if_false]
        simp
        omega
  · intro sid hsid
    unfold inactiveUserFlag at hsid
    by_cases hd : d ≤ 0
    · rw [if_pos hd] at hsid
      simp at hsid
    · rw [if_neg hd] at hsid
      cases hu : u.lastActivityAt with
      | none =>
        rw [hu] at hsid
        simp at hsid
      | some t =>
        rw [hu] at hsid
        simp only [] at hsid
        by_cases hlt : t < now - d * dayMs
        · rw [if_pos hlt] at hsid
          by_cases hg : (sticky && ack == some t) = true
          · rw [if_pos hg] at hsid
            simp at hsid
          · rw [if_neg hg] at hsid
            cases hss : ss with
            | nil =>
              rw [hss] at hsid
              simp [latestSession] at hsid
            | cons a rest =>
              rw [hss] at hsid
              simp [latestSession] at hsid
              refine ⟨rest.foldl pickLater a, ?_, hsid, ?_⟩
              · exact foldl_pickLater_mem rest a
              · exact foldl_pickLater_ge rest a
        · rw [if_neg hlt] at hsid
          simp at hsid

/-- Witness for C8 (amended) at concrete inputs: a user two days inactive
under a one-day rule is flagged with the later of their two sessions as the
trigger; the same user with no session is not flagged; and with sticky
acknowledgement at the current `lastActivityAt`, they are not re-flagged. -/
theorem C8_inactivity_scanner_witness :
    inactiveUserFlag 172800000 1 false none [⟨"s1", 0⟩, ⟨"s2", 500⟩] ⟨"u1", some 0⟩
      = some "s2"
    ∧ (inactiveUserFlag 172800000 1 false none [⟨"s1", 0⟩, ⟨"s2", 500⟩]
        ⟨"u1", some 0⟩).isSome = true
    ∧ inactiveUserFlag 172800000 1 false none [] ⟨"u1", some 0⟩ = none
    ∧ inactiveUserFlag 172800000 1 true (some 0) [⟨"s1", 0⟩] ⟨"u1", some 0⟩ = none := by
  refine ⟨by decide, ?_, ?_, ?_⟩
  · exact ((C8_inactivity_scanner 172800000 1 false none
      [⟨"s1", 0⟩, ⟨"s2", 500⟩] ⟨"u1", some 0⟩).2.2.1 0 rfl).mpr
      ⟨by decide, by decide, by simp, by simp⟩
  · exact (C8_inactivity_scanner 172800000 1 false none [] ⟨"u1", some 0⟩).2.1 rfl
  · cases hflag : inactiveUserFlag 172800000 1 true (some 0)
        [⟨"s1", 0⟩] ⟨"u1", some 0⟩ with
    | none => rfl
    | some sid =>
      have hc := ((C8_inactivity_scanner 172800000 1 true (some 0)
        [⟨"s1", 0⟩] ⟨"u1", some 0⟩).2.2.1 0 rfl).mp (by rw [hflag]; rfl)
      exact absurd (⟨rfl, rfl⟩ : true = true ∧ (some 0 : Option Int) = some 0)
        hc.2.2.1

/-! ## Violations storage: partial unique index backstop -/

/-- A violations-table row as constrained by the partial unique index
(migration `0026_common_boom_boom.sql`): the indexed columns
`server_user_id`, `session_id`, `rule_type` and the predicate column
`acknowledged_at`. -/
structure VRow where
  serverUserId : String
  sessionId : String
  ruleType : RuleType
  acknowledgedAt : Option Int
deriving DecidableEq, Repr

/-- Whether a row is unacknowledged and carries the given
`(serverUserId, sessionId, ruleType)` triple — the rows covered by the
partial unique index `violations_unique_active_user_session_type`. -/
def matchesActiveTriple (suid sid : String) (rt : RuleType) (e : VRow) : Bool :=
  e.acknowledgedAt.isNone && e.serverUserId == suid
    && e.sessionId == sid && e.ruleType == rt

/-- Admission predicate of the partial unique index
(`CREATE UNIQUE INDEX ... ON violations (server_user_id, session_id,
rule_type) WHERE acknowledged_at IS NULL`, migration
`0026_common_boom_boom.sql`): an insert is admitted unless the new row is
unacknowledged and an unacknowledged row with the same triple already
exists. -/
def indexAdmits (tbl : List VRow) (r : VRow) : Bool :=
  match r.acknowledgedAt with
  | some _ => true
  | none => !(tbl.any (matchesActiveTriple r.serverUserId r.sessionId r.ruleType))

/-- Database states reachable through the violations lifecycle (spec §3):
starting empty, rows are inserted only when the unique partial index admits
them, and existing rows are never mutated except to set `acknowledgedAt`. -/
inductive ReachableViolations : List VRow → Prop where
  | empty : ReachableViolations []
  | insert (tbl : List VRow) (r : VRow) :
      ReachableViolations tbl → indexAdmits tbl r = true →
      ReachableViolations (r :: tbl)
  | acknowledge (pre post : List VRow) (r : VRow) (t : Int) :
      ReachableViolations (pre ++ r :: post) →
      ReachableViolations (pre ++ { r with acknowledgedAt := some t } :: post)

/-- Number of unacknowledged violations carrying a given triple. -/
def activeTripleCount (tbl : List VRow) (suid sid : String) (rt : RuleType) : Nat :=
  (tbl.filter (matchesActiveTriple suid sid rt)).length

/-- C9: independent of the application-level dedup logic, the partial unique
index of migration `0026_common_boom_boom.sql` enforces that every reachable
violations-table state holds at most one unacknowledged violation per
`(serverUserId, sessionId, ruleType)` triple. -/
theorem C9_unique_active (tbl : List VRow) (h : ReachableViolations tbl)
    (suid sid : String) (rt : RuleType) :
    activeTripleCount tbl suid sid rt ≤ 1 := by
  induction h with
  | empty => simp [activeTripleCount]
  | insert tbl r hreach hadm ih =>
    by_cases hm : matchesActiveTriple suid sid rt r = true
    · have hack : r.acknowledgedAt = none := by
        have := hm
        unfold matchesActiveTriple at this
        simp only [Bool.and_eq_true, Option.isNone_iff_eq_none, beq_iff_eq] at this
        exact this.1.1.1
      have htriple : r.serverUserId = suid ∧ r.sessionId = sid ∧ r.ruleType = rt := by
        have := hm
        unfold matchesActiveTriple at this
        simp only [Bool.and_eq_true, Option.isNone_iff_eq_none, beq_iff_eq] at this
        exact ⟨this.1.1.2, this.1.2, this.2⟩
      have hany : tbl.any (matchesActiveTriple r.serverUserId r.sessionId r.ruleType)
          = false := by
        unfold indexAdmits at hadm
        rw [hack] at hadm
        simpa using hadm
      have hfilter : tbl.filter (matchesActiveTriple suid sid rt) = [] := by
        rw [List.filter_eq_nil_iff]
        intro a ha
        have := (List.any_eq_false).1 hany a ha
        rw [htriple.1, htriple.2.1, htriple.2.2] at this
        simpa using this
      unfold activeTripleCount
      rw [List.filter_cons, if_pos hm, hfilter]
      simp
    · unfold activeTripleCount at ih ⊢
      rw [List.filter_cons, if_neg hm]
      exact ih
  | acknowledge pre post r t hreach ih =>
    have hr : matchesActiveTriple suid sid rt { r with acknowledgedAt := some t }
        = false := by
      unfold matchesActiveTriple
      simp
    unfold activeTripleCount at ih ⊢
    rw [List.filter_append, List.filter_cons] at ih ⊢
    rw [if_neg (by simp [hr])]
    split at ih <;> simp only [List.length_append, List.length_cons] at ih ⊢ <;> omega

/-- Witness for C9 on a concrete reachable state: insert an unacknowledged
violation, acknowledge it, then insert a fresh unacknowledged violation for
the same triple — the index admits each step and the state keeps at most one
unacknowledged row for the triple. -/
theorem C9_unique_active_witness :
    activeTripleCount
      [⟨"u", "s", .concurrent_streams, none⟩,
        ⟨"u", "s", .concurrent_streams, some 5⟩]
      "u" "s" .concurrent_streams ≤ 1 :=
  C9_unique_active _
    (ReachableViolations.insert _ ⟨"u", "s", .concurrent_streams, none⟩
      (ReachableViolations.acknowledge [] [] ⟨"u", "s", .concurrent_streams, none⟩ 5
        (ReachableViolations.insert [] ⟨"u", "s", .concurrent_streams, none⟩
          ReachableViolations.empty (by decide)))
      (by decide))
    "u" "s" .concurrent_streams

end Tracearr
